import Mathlib

/-!
Verification of the LogiFlow network-optimizer core
(src/optimization/network_optimizer.py, class NetworkOptimizer).

The development shallowly embeds the optimization core: the MILP assembled by
NetworkOptimizer.build_model, the status handling of NetworkOptimizer.solve,
the solution extraction of NetworkOptimizer.extract_solution, and the
scenario sweep of NetworkOptimizer.compare_scenarios.  Costs, demands and
solver variable values are modelled as rationals; the external CBC solver is
modelled as an oracle supplying a status and a variable assignment, since the
solver binary itself is outside the repository.  Exceptions raised by the
Python code (pandas KeyError on an empty route table, pandas ValueError on an
empty idxmin) are modelled with Except.
-/

namespace LogiFlow

/-- Decision variables of the MILP: one binary open indicator per warehouse
(LpVariable.dicts with name warehouse_open) and one continuous flow variable
per (warehouse, customer) pair (LpVariable.dicts with name shipment). -/
inductive Var where
  | y : String → Var
  | x : String → String → Var
deriving DecidableEq, Repr

/-- Linear expression: a list of (variable, coefficient) terms, as assembled
by lpSum calls inside build_model. -/
structure LinExpr where
  terms : List (Var × ℚ)
deriving DecidableEq, Repr

/-- Value of a linear expression under a variable assignment. -/
def LinExpr.eval (e : LinExpr) (a : Var → ℚ) : ℚ :=
  (e.terms.map fun t => t.2 * a t.1).sum

/-- Comparison operator of a PuLP constraint (the model only uses equality
and less-or-equal). -/
inductive Rel where
  | le
  | eq
deriving DecidableEq, Repr

/-- One PuLP constraint: linear left-hand side, comparison, right-hand
constant, and the name it is registered under in the model. -/
structure Constr where
  lhs : LinExpr
  rel : Rel
  rhs : ℚ
  name : String
deriving DecidableEq, Repr

/-- Satisfaction of one constraint by a variable assignment. -/
def Constr.sat (cstr : Constr) (a : Var → ℚ) : Prop :=
  match cstr.rel with
  | Rel.le => cstr.lhs.eval a ≤ cstr.rhs
  | Rel.eq => cstr.lhs.eval a = cstr.rhs

instance (cstr : Constr) (a : Var → ℚ) : Decidable (cstr.sat a) :=
  match cstr with
  | ⟨lhs, Rel.le, rhs, _⟩ => inferInstanceAs (Decidable (lhs.eval a ≤ rhs))
  | ⟨lhs, Rel.eq, rhs, _⟩ => inferInstanceAs (Decidable (lhs.eval a = rhs))

/-- The MILP instance produced by build_model: variable declarations with
their categories (Binary, or Continuous with lower bound 0), the objective
expression and the constraint list. -/
structure LPModel where
  binaryVars : List Var
  contVars : List Var
  objective : LinExpr
  constraints : List Constr
deriving DecidableEq, Repr

/-- An assignment is admissible for a model when it respects the variable
categories (binary variables take value 0 or 1, continuous variables are
nonnegative) and satisfies every constraint of the model. -/
def LPModel.admissible (m : LPModel) (a : Var → ℚ) : Prop :=
  (∀ v ∈ m.binaryVars, a v = 0 ∨ a v = 1) ∧
  (∀ v ∈ m.contVars, 0 ≤ a v) ∧
  (∀ cstr ∈ m.constraints, cstr.sat a)

instance (m : LPModel) (a : Var → ℚ) : Decidable (m.admissible a) :=
  inferInstanceAs (Decidable (_ ∧ _ ∧ _))

/-- A model is feasible when some admissible assignment exists. -/
def LPModel.feasible (m : LPModel) : Prop :=
  ∃ a, m.admissible a

/-- Input data of one build_model call, after the service-level filtering and
aggregation performed at the top of build_model: the warehouse identifier
list (self.warehouses), the keys of demand_dict (customers of the filtered
demand mapping, unique after groupby), the demand_dict values, the cost_dict
lookup (none models a (warehouse, customer) key absent from the dictionary,
where cost_dict.get defaults to 0), and the fixed_cost_dict lookup. -/
structure ProblemData where
  warehouses : List String
  customers : List String
  demand : String → ℚ
  cost : String → String → Option ℚ
  fixedCost : String → ℚ

/-- The route index set of build_model: every (warehouse, customer) pair,
in the nested iteration order of the Python list comprehension. -/
def routePairs (P : ProblemData) : List (String × String) :=
  P.warehouses.flatMap fun w => P.customers.map fun c => (w, c)

/-- Total demand over the filtered demand mapping: sum(demand_dict.values()),
used as the big-M constant of the linking constraints. -/
def totalDemand (P : ProblemData) : ℚ :=
  (P.customers.map P.demand).sum

/-- Demand-satisfaction constraint registered for customer c: the sum of the
flow variables from every warehouse into c equals the aggregated demand of c,
registered under the name Demand_ followed by the customer identifier. -/
def demandConstr (P : ProblemData) (c : String) : Constr :=
  ⟨⟨P.warehouses.map fun w => (Var.x w c, 1)⟩, Rel.eq, P.demand c, "Demand_" ++ c⟩

/-- Big-M linking constraint for the pair (w, c): the flow on the route is at
most total demand times the open indicator of w; PuLP normalizes
x less-or-equal M times y into x minus M times y less-or-equal 0. -/
def linkConstr (P : ProblemData) (w c : String) : Constr :=
  ⟨⟨[(Var.x w c, 1), (Var.y w, -(totalDemand P))]⟩, Rel.le, 0,
    "Capacity_" ++ w ++ "_" ++ c⟩

/-- Cardinality constraint bounding the number of open warehouses by k. -/
def capConstr (P : ProblemData) (k : ℕ) : Constr :=
  ⟨⟨P.warehouses.map fun w => (Var.y w, 1)⟩, Rel.le, (k : ℚ), "Max_Warehouses"⟩

/-- Shallow embedding of NetworkOptimizer.build_model.  The objective adds
fixed costs times open indicators and transport costs times flows; the
constraints are, in order: one demand equality per customer of the filtered
demand mapping, one big-M linking constraint per (warehouse, customer) pair,
and, only when the max_warehouses argument is truthy in Python (not None and
not 0), one cardinality constraint bounding the number of open warehouses. -/
def build_model (P : ProblemData) (max_warehouses : Option ℕ) : LPModel :=
  { binaryVars := P.warehouses.map Var.y
    contVars := (routePairs P).map fun wc => Var.x wc.1 wc.2
    objective :=
      ⟨(P.warehouses.map fun w => (Var.y w, P.fixedCost w)) ++
        ((routePairs P).map fun wc => (Var.x wc.1 wc.2, (P.cost wc.1 wc.2).getD 0))⟩
    constraints :=
      (P.customers.map fun c => demandConstr P c) ++
      ((routePairs P).map fun wc => linkConstr P wc.1 wc.2) ++
      (match max_warehouses with
        | some k => if k = 0 then [] else [capConstr P k]
        | none => []) }

/-- Solver status as read back through LpStatus in NetworkOptimizer.solve. -/
inductive SolveStatus where
  | Optimal
  | Feasible
  | Infeasible
  | Unbounded
  | NotSolved
  | Undefined
deriving DecidableEq, Repr

/-- Result of one external solver invocation: a status plus the variable
values the solver left behind (varValue fields). -/
structure SolverResult where
  status : SolveStatus
  assignment : Var → ℚ

/-- Rounding to two decimal places, modelling round(v, 2).  Python rounds
binary floats half to even; this development only evaluates round2 away from
exact half-way points, where the two rounding rules agree. -/
def round2 (q : ℚ) : ℚ :=
  ((round (100 * q) : ℤ) : ℚ) / 100

/-- One row of the route table built by extract_solution, with the field
names of the Python dict. -/
structure Route where
  warehouse : String
  customer : String
  shipments : ℚ
  cost_per_shipment : ℚ
  total_cost : ℚ
deriving DecidableEq, Repr

/-- Open-warehouse list of extract_solution: every warehouse whose open
indicator value exceeds 0.5. -/
def openWarehouses (P : ProblemData) (a : Var → ℚ) : List String :=
  P.warehouses.filter fun w => (1 : ℚ)/2 < a (Var.y w)

/-- Loop body of the route extraction: the row appended for the pair wc when
its flow exceeds 0.01, holding the rounded flow, the raw unit cost from
cost_dict (defaulting to 0 when the key is absent), and the rounded line
cost; nothing is appended otherwise. -/
def routeRow (P : ProblemData) (a : Var → ℚ) (wc : String × String) : Option Route :=
  if (1 : ℚ)/100 < a (Var.x wc.1 wc.2) then
    some { warehouse := wc.1
           customer := wc.2
           shipments := round2 (a (Var.x wc.1 wc.2))
           cost_per_shipment := (P.cost wc.1 wc.2).getD 0
           total_cost := round2 (a (Var.x wc.1 wc.2) * (P.cost wc.1 wc.2).getD 0) }
  else none

/-- Route table of extract_solution: every (warehouse, customer) pair whose
flow exceeds 0.01, in iteration order of the variable dictionary. -/
def extractRoutes (P : ProblemData) (a : Var → ℚ) : List Route :=
  (routePairs P).filterMap (routeRow P a)

/-- The solution dict assembled by extract_solution. -/
structure Solution where
  open_warehouses : List String
  num_warehouses : ℕ
  routes : List Route
  total_cost : ℚ
  fixed_cost : ℚ
  variable_cost : ℚ
  objective_value : ℚ
deriving DecidableEq, Repr

/-- Shallow embedding of NetworkOptimizer.extract_solution.  When the route
table is empty, pandas builds a DataFrame with no columns and the lookup of
column total_cost raises KeyError, modelled as an error result; otherwise the
cost totals are computed and the solution dict is returned.  The stored
objective_value is the model objective evaluated at the assignment, matching
value(self.model.objective). -/
def extract_solution (P : ProblemData) (m : LPModel) (a : Var → ℚ) :
    Except String Solution :=
  let ows := openWarehouses P a
  let rs := extractRoutes P a
  if rs.isEmpty then
    Except.error "KeyError: total_cost"
  else
    let fixed := (ows.map P.fixedCost).sum
    let var := (rs.map Route.total_cost).sum
    Except.ok
      { open_warehouses := ows
        num_warehouses := ows.length
        routes := rs
        total_cost := fixed + var
        fixed_cost := fixed
        variable_cost := var
        objective_value := m.objective.eval a }

/-- Shallow embedding of NetworkOptimizer.solve, given the oracle result of
the external solver run: on Optimal or Feasible status the solution is
extracted (propagating an extraction exception); on any other status the
method returns None without touching the stored solution. -/
def solve (P : ProblemData) (cap : Option ℕ) (r : SolverResult) :
    Except String (Option Solution) :=
  if r.status = SolveStatus.Optimal ∨ r.status = SolveStatus.Feasible then
    (extract_solution P (build_model P cap) r.assignment).map some
  else
    Except.ok none

/-- One row of the scenario comparison table of compare_scenarios. -/
structure ScenarioRec where
  max_warehouses : ℕ
  actual_warehouses : ℕ
  total_cost : ℚ
  fixed_cost : ℚ
  variable_cost : ℚ
deriving DecidableEq, Repr

/-- The warehouse-count caps swept by compare_scenarios. -/
def sweepCaps : List ℕ :=
  [2, 3, 4, 5, 6, 7, 8]

/-- The loop body state of compare_scenarios, threading the mutable
self.solution attribute: solve overwrites it only on a successful extraction
and leaves the previous (stale) value in place on any other status, and the
loop appends a record whenever the attribute is truthy afterwards. -/
def sweepFold (P : ProblemData) (results : ℕ → SolverResult) :
    List ℕ → List ScenarioRec × Option Solution →
    Except String (List ScenarioRec × Option Solution)
  | [], st => Except.ok st
  | n :: rest, st => do
      let r := results n
      let sol ←
        if r.status = SolveStatus.Optimal ∨ r.status = SolveStatus.Feasible then
          (extract_solution P (build_model P (some n)) r.assignment).map some
        else
          pure st.2
      let recs :=
        match sol with
        | some s =>
            st.1 ++ [{ max_warehouses := n
                       actual_warehouses := s.num_warehouses
                       total_cost := s.total_cost
                       fixed_cost := s.fixed_cost
                       variable_cost := s.variable_cost }]
        | none => st.1
      sweepFold P results rest (recs, sol)

/-- Selection of the optimal scenario row, modelling idxmin on the total_cost
column followed by iloc: the first collected record whose total cost is
less-or-equal to every collected total cost. -/
def scenario_optimal (recs : List ScenarioRec) : Option ScenarioRec :=
  recs.find? fun r => recs.all fun s => decide (r.total_cost ≤ s.total_cost)

/-- Shallow embedding of NetworkOptimizer.compare_scenarios on a freshly
constructed optimizer (stored solution initially None): sweep the caps,
collect the comparison table, then report the idxmin row; pandas raises
ValueError when idxmin is applied to an empty column, modelled as an error
result. -/
def compare_scenarios (P : ProblemData) (results : ℕ → SolverResult) :
    Except String (List ScenarioRec × ScenarioRec) := do
  let st ← sweepFold P results sweepCaps ([], none)
  match scenario_optimal st.1 with
  | some r => Except.ok (st.1, r)
  | none => Except.error "ValueError: argmin of an empty sequence"

/-! Concrete data used to evaluate the embedding on small instances: one
candidate warehouse A with annual fixed cost 100, one customer c1, and a few
variations of demand and unit cost. -/

/-- Tiny instance: one warehouse, one customer, demand 10, unit cost 2. -/
def Pw : ProblemData :=
  { warehouses := ["A"]
    customers := ["c1"]
    demand := fun c => if c = "c1" then 10 else 0
    cost := fun w c => if w = "A" ∧ c = "c1" then some 2 else none
    fixedCost := fun w => if w = "A" then 100 else 0 }

/-- Solver assignment for Pw: warehouse A open, all demand routed through A. -/
def aw : Var → ℚ
  | Var.y w => if w = "A" then 1 else 0
  | Var.x w c => if w = "A" ∧ c = "c1" then 10 else 0

/-- The solution extract_solution produces on Pw under aw. -/
def sw : Solution :=
  { open_warehouses := ["A"]
    num_warehouses := 1
    routes := [{ warehouse := "A", customer := "c1", shipments := 10,
                 cost_per_shipment := 2, total_cost := 20 }]
    total_cost := 120
    fixed_cost := 100
    variable_cost := 20
    objective_value := 120 }

/-- Solver oracle for a sweep over Pw in which only the cap-2 run succeeds
and every later cap reports Infeasible. -/
def results2 : ℕ → SolverResult :=
  fun n => if n = 2 then ⟨SolveStatus.Optimal, aw⟩ else ⟨SolveStatus.Infeasible, aw⟩

/-- Scenario record with the cost breakdown of sw, labelled with cap n. -/
def rec120 (n : ℕ) : ScenarioRec :=
  { max_warehouses := n, actual_warehouses := 1, total_cost := 120,
    fixed_cost := 100, variable_cost := 20 }

/-- Comparison table the sweep collects on Pw under results2. -/
def recsDemo : List ScenarioRec :=
  [rec120 2, rec120 3, rec120 4, rec120 5, rec120 6, rec120 7, rec120 8]

/-- Instance whose only unit cost has three decimal places. -/
def P7 : ProblemData :=
  { warehouses := ["A"]
    customers := ["c1"]
    demand := fun c => if c = "c1" then 1 else 0
    cost := fun w c => if w = "A" ∧ c = "c1" then some (123/1000) else none
    fixedCost := fun w => if w = "A" then 100 else 0 }

/-- Solver assignment for P7: A open, the single unit of demand routed. -/
def a7 : Var → ℚ
  | Var.y w => if w = "A" then 1 else 0
  | Var.x w c => if w = "A" ∧ c = "c1" then 1 else 0

/-- The single route P7 produces under a7: raw unit cost 0.123, line cost
rounded to 0.12. -/
def r7 : Route :=
  { warehouse := "A", customer := "c1", shipments := 1,
    cost_per_shipment := 123/1000, total_cost := 12/100 }

/-- Instance whose demand has three decimal places (5.004 units). -/
def P8 : ProblemData :=
  { warehouses := ["A"]
    customers := ["c1"]
    demand := fun c => if c = "c1" then 1251/250 else 0
    cost := fun w c => if w = "A" ∧ c = "c1" then some 2 else none
    fixedCost := fun w => if w = "A" then 100 else 0 }

/-- Solver assignment for P8: A open, all 5.004 units routed through A. -/
def a8 : Var → ℚ
  | Var.y w => if w = "A" then 1 else 0
  | Var.x w c => if w = "A" ∧ c = "c1" then 1251/250 else 0

/-- Assignment in which the solver leaves every variable at zero. -/
def a0 : Var → ℚ :=
  fun _ => 0


/-- Membership in the route index set. -/
theorem mem_routePairs {P : ProblemData} {w c : String} :
    (w, c) ∈ routePairs P ↔ w ∈ P.warehouses ∧ c ∈ P.customers := by
  simp [routePairs, List.mem_flatMap, List.mem_map, Prod.mk.injEq]

/-- The open indicator of every listed warehouse is declared Binary. -/
theorem binaryVar_mem {P : ProblemData} {w : String} (cap : Option ℕ)
    (hw : w ∈ P.warehouses) : Var.y w ∈ (build_model P cap).binaryVars := by
  simp [build_model, List.mem_map]
  exact hw

/-- The flow variable of every (warehouse, customer) pair is declared
Continuous with lower bound zero. -/
theorem contVar_mem {P : ProblemData} {w c : String} (cap : Option ℕ)
    (hw : w ∈ P.warehouses) (hc : c ∈ P.customers) :
    Var.x w c ∈ (build_model P cap).contVars := by
  simp only [build_model, List.mem_map]
  exact ⟨(w, c), mem_routePairs.2 ⟨hw, hc⟩, rfl⟩

/-- The demand constraint of every listed customer is registered. -/
theorem demandConstr_mem {P : ProblemData} {c : String} (cap : Option ℕ)
    (hc : c ∈ P.customers) : demandConstr P c ∈ (build_model P cap).constraints := by
  simp only [build_model, List.mem_append, List.mem_map]
  exact Or.inl (Or.inl ⟨c, hc, rfl⟩)

/-- The linking constraint of every (warehouse, customer) pair is registered. -/
theorem linkConstr_mem {P : ProblemData} {w c : String} (cap : Option ℕ)
    (hw : w ∈ P.warehouses) (hc : c ∈ P.customers) :
    linkConstr P w c ∈ (build_model P cap).constraints := by
  simp only [build_model, List.mem_append, List.mem_map]
  exact Or.inl (Or.inr ⟨(w, c), mem_routePairs.2 ⟨hw, hc⟩, rfl⟩)

/-- Semantics of the demand constraint. -/
theorem demandConstr_sat_iff {P : ProblemData} {c : String} {a : Var → ℚ} :
    (demandConstr P c).sat a ↔
      (P.warehouses.map fun w => a (Var.x w c)).sum = P.demand c := by
  simp [demandConstr, Constr.sat, LinExpr.eval, List.map_map, Function.comp_def]

/-- Semantics of the linking constraint. -/
theorem linkConstr_sat_iff {P : ProblemData} {w c : String} {a : Var → ℚ} :
    (linkConstr P w c).sat a ↔
      a (Var.x w c) ≤ totalDemand P * a (Var.y w) := by
  simp only [linkConstr, Constr.sat, LinExpr.eval, List.map_cons, List.map_nil,
    List.sum_cons, List.sum_nil, one_mul]
  constructor <;> intro h <;> linarith

/-- Value of the objective of the built model under any assignment. -/
theorem objective_eval (P : ProblemData) (cap : Option ℕ) (a : Var → ℚ) :
    (build_model P cap).objective.eval a =
      (P.warehouses.map fun w => P.fixedCost w * a (Var.y w)).sum +
      ((routePairs P).map fun wc =>
        ((P.cost wc.1 wc.2).getD 0) * a (Var.x wc.1 wc.2)).sum := by
  simp [build_model, LinExpr.eval, List.map_append, List.sum_append, List.map_map,
    Function.comp_def]


/-- Rounding to two decimals moves a rational by at most half a cent. -/
theorem round2_close (q : ℚ) : |round2 q - q| ≤ 1/200 := by
  have h : round2 q - q = (((round (100 * q) : ℤ) : ℚ) - 100 * q) / 100 := by
    unfold round2; ring
  rw [h, abs_div]
  have h2 : |((round (100 * q) : ℤ) : ℚ) - 100 * q| ≤ 1/2 := by
    rw [abs_sub_comm]; exact abs_sub_round (100 * q)
  rw [abs_of_pos (by norm_num : (0:ℚ) < 100)]
  linarith

/-- Summing the fixed costs of the warehouses whose binary indicator exceeds
one half equals the indicator-weighted sum over all warehouses. -/
theorem filter_half_sum (f g : String → ℚ) :
    ∀ ws : List String, (∀ w ∈ ws, g w = 0 ∨ g w = 1) →
      ((ws.filter fun w => decide ((1:ℚ)/2 < g w)).map f).sum =
        (ws.map fun w => f w * g w).sum
  | [], _ => by simp
  | w :: ws, h => by
      have hw := h w (List.mem_cons_self w ws)
      have ih := filter_half_sum f g ws fun x hx => h x (List.mem_cons_of_mem w hx)
      rcases hw with h0 | h1
      · have hcond : decide ((1:ℚ)/2 < g w) = false := by rw [h0]; norm_num
        rw [List.filter_cons, hcond, if_neg Bool.false_ne_true, ih, List.map_cons,
          List.sum_cons, h0, mul_zero, zero_add]
      · have hcond : decide ((1:ℚ)/2 < g w) = true := by rw [h1]; norm_num
        rw [List.filter_cons, hcond, if_pos rfl, List.map_cons, List.sum_cons, ih,
          List.map_cons, List.sum_cons, h1, mul_one]

/-- Under clean flows (each flow zero or above the reporting threshold) and
exactly representable line costs, the rounded line costs of the extracted
rows sum to the transport part of the objective. -/
theorem filterMap_cost_sum (P : ProblemData) (a : Var → ℚ) :
    ∀ l : List (String × String),
      (∀ wc ∈ l, a (Var.x wc.1 wc.2) = 0 ∨ (1:ℚ)/100 < a (Var.x wc.1 wc.2)) →
      (∀ wc ∈ l, round2 (a (Var.x wc.1 wc.2) * (P.cost wc.1 wc.2).getD 0) =
        a (Var.x wc.1 wc.2) * (P.cost wc.1 wc.2).getD 0) →
      ((l.filterMap (routeRow P a)).map Route.total_cost).sum =
        (l.map fun wc => ((P.cost wc.1 wc.2).getD 0) * a (Var.x wc.1 wc.2)).sum
  | [], _, _ => by simp
  | wc :: l, hclean, hexact => by
      have hwc := hclean wc (List.mem_cons_self wc l)
      have hex := hexact wc (List.mem_cons_self wc l)
      have ih := filterMap_cost_sum P a l
        (fun x hx => hclean x (List.mem_cons_of_mem wc hx))
        (fun x hx => hexact x (List.mem_cons_of_mem wc hx))
      by_cases hpos : (1:ℚ)/100 < a (Var.x wc.1 wc.2)
      · have hrow : routeRow P a wc = some
            { warehouse := wc.1, customer := wc.2,
              shipments := round2 (a (Var.x wc.1 wc.2)),
              cost_per_shipment := (P.cost wc.1 wc.2).getD 0,
              total_cost := round2 (a (Var.x wc.1 wc.2) * (P.cost wc.1 wc.2).getD 0) } := by
          simp only [routeRow]; rw [if_pos hpos]
        rw [List.filterMap_cons_some hrow, List.map_cons, List.sum_cons, ih]
        show round2 (a (Var.x wc.1 wc.2) * (P.cost wc.1 wc.2).getD 0) + _ = _
        rw [hex, List.map_cons, List.sum_cons]
        ring
      · rcases hwc with h0 | h1
        · have hrow : routeRow P a wc = none := by
            simp only [routeRow]; rw [if_neg hpos]
          rw [List.filterMap_cons_none hrow, ih, List.map_cons, List.sum_cons, h0,
            mul_zero, zero_add]
        · exact absurd h1 hpos

/-- Triangle inequality for sums of listwise close functions. -/
theorem sum_abs_le {α : Type} (f g : α → ℚ) (eps : ℚ) (heps : 0 ≤ eps) :
    ∀ l : List α, (∀ x ∈ l, |f x - g x| ≤ eps) →
      |(l.map f).sum - (l.map g).sum| ≤ (l.length : ℚ) * eps
  | [], _ => by simp
  | x :: l, h => by
      have hx := h x (List.mem_cons_self x l)
      have ih := sum_abs_le f g eps heps l fun y hy => h y (List.mem_cons_of_mem x hy)
      simp only [List.map_cons, List.sum_cons, List.length_cons]
      have tri : |(f x + (l.map f).sum) - (g x + (l.map g).sum)| ≤
          |f x - g x| + |(l.map f).sum - (l.map g).sum| := by
        have h1 : (f x + (l.map f).sum) - (g x + (l.map g).sum) =
            (f x - g x) + ((l.map f).sum - (l.map g).sum) := by ring
        rw [h1]; exact abs_add _ _
      have hn : ((l.length + 1 : ℕ) : ℚ) * eps = (l.length : ℚ) * eps + eps := by
        push_cast; ring
      rw [hn]
      linarith

/-- A reported shipment quantity (rounded flow above the threshold, nothing
below it) is within 0.01 of the raw flow. -/
theorem shipterm_close {q : ℚ} (hq : 0 ≤ q) :
    |(if (1:ℚ)/100 < q then round2 q else 0) - q| ≤ 1/100 := by
  by_cases h : (1:ℚ)/100 < q
  · simp only [h, if_true]
    have := round2_close q
    linarith [abs_le.1 this, abs_le.2 (abs_le.1 this)]
  · simp only [h, if_false]
    rw [abs_sub_comm, abs_of_nonneg (by linarith : (0:ℚ) ≤ q - 0)]
    push_neg at h
    linarith


/-- No extracted row for warehouse w carries customer c when c is not among
the iterated customers. -/
theorem custRows_nil (P : ProblemData) (a : Var → ℚ) (c w : String) :
    ∀ cs : List String, c ∉ cs →
      (((cs.map fun d => (w, d)).filterMap (routeRow P a)).filter
        fun r => decide (r.customer = c)) = []
  | [], _ => by simp
  | d :: cs, h => by
      have hsplit : c ≠ d ∧ c ∉ cs := by
        rw [List.mem_cons] at h; push_neg at h; exact h
      have ih := custRows_nil P a c w cs hsplit.2
      rw [List.map_cons]
      by_cases hpos : (1:ℚ)/100 < a (Var.x w d)
      · have hrow : routeRow P a (w, d) = some
            { warehouse := w, customer := d, shipments := round2 (a (Var.x w d)),
              cost_per_shipment := (P.cost w d).getD 0,
              total_cost := round2 (a (Var.x w d) * (P.cost w d).getD 0) } := by
          simp only [routeRow]; rw [if_pos hpos]
        rw [List.filterMap_cons_some hrow, List.filter_cons]
        have hcond : decide
            (({ warehouse := w, customer := d, shipments := round2 (a (Var.x w d)),
                cost_per_shipment := (P.cost w d).getD 0,
                total_cost := round2 (a (Var.x w d) * (P.cost w d).getD 0) } :
              Route).customer = c) = false :=
          decide_eq_false fun e => hsplit.1 e.symm
        rw [hcond, if_neg Bool.false_ne_true, ih]
      · have hrow : routeRow P a (w, d) = none := by
          simp only [routeRow]; rw [if_neg hpos]
        rw [List.filterMap_cons_none hrow, ih]

/-- For warehouse w and a customer c occurring once among the iterated
customers, the shipments reported for (w, c) sum to the rounded flow when the
flow is above the threshold and to nothing otherwise. -/
theorem custRows_sum (P : ProblemData) (a : Var → ℚ) (c w : String) :
    ∀ cs : List String, cs.Nodup → c ∈ cs →
      ((((cs.map fun d => (w, d)).filterMap (routeRow P a)).filter
        fun r => decide (r.customer = c)).map Route.shipments).sum =
        (if (1:ℚ)/100 < a (Var.x w c) then round2 (a (Var.x w c)) else 0)
  | [], _, hc => absurd hc (List.not_mem_nil c)
  | d :: cs, hnd, hc => by
      rw [List.map_cons]
      rcases List.mem_cons.1 hc with rfl | hmem
      · have hrest : c ∉ cs := (List.nodup_cons.1 hnd).1
        by_cases hpos : (1:ℚ)/100 < a (Var.x w c)
        · have hrow : routeRow P a (w, c) = some
              { warehouse := w, customer := c, shipments := round2 (a (Var.x w c)),
                cost_per_shipment := (P.cost w c).getD 0,
                total_cost := round2 (a (Var.x w c) * (P.cost w c).getD 0) } := by
            simp only [routeRow]; rw [if_pos hpos]
          rw [List.filterMap_cons_some hrow, List.filter_cons]
          have hcond : decide
              (({ warehouse := w, customer := c, shipments := round2 (a (Var.x w c)),
                  cost_per_shipment := (P.cost w c).getD 0,
                  total_cost := round2 (a (Var.x w c) * (P.cost w c).getD 0) } :
                Route).customer = c) = true := decide_eq_true rfl
          rw [hcond, if_pos rfl, List.map_cons, List.sum_cons,
            custRows_nil P a c w cs hrest, if_pos hpos]
          simp
        · have hrow : routeRow P a (w, c) = none := by
            simp only [routeRow]; rw [if_neg hpos]
          rw [List.filterMap_cons_none hrow, custRows_nil P a c w cs hrest, if_neg hpos]
          simp
      · have hd : d ∉ cs := (List.nodup_cons.1 hnd).1
        have hne : d ≠ c := fun e => hd (e ▸ hmem)
        have ih := custRows_sum P a c w cs (List.nodup_cons.1 hnd).2 hmem
        by_cases hpos : (1:ℚ)/100 < a (Var.x w d)
        · have hrow : routeRow P a (w, d) = some
              { warehouse := w, customer := d, shipments := round2 (a (Var.x w d)),
                cost_per_shipment := (P.cost w d).getD 0,
                total_cost := round2 (a (Var.x w d) * (P.cost w d).getD 0) } := by
            simp only [routeRow]; rw [if_pos hpos]
          rw [List.filterMap_cons_some hrow, List.filter_cons]
          have hcond : decide
              (({ warehouse := w, customer := d, shipments := round2 (a (Var.x w d)),
                  cost_per_shipment := (P.cost w d).getD 0,
                  total_cost := round2 (a (Var.x w d) * (P.cost w d).getD 0) } :
                Route).customer = c) = false := decide_eq_false hne
          rw [hcond, if_neg Bool.false_ne_true, ih]
        · have hrow : routeRow P a (w, d) = none := by
            simp only [routeRow]; rw [if_neg hpos]
          rw [List.filterMap_cons_none hrow, ih]


/-- Summing the reported shipments of one customer across the whole extracted
route table decomposes into one reporting term per warehouse. -/
theorem custRows_outer (P : ProblemData) (a : Var → ℚ) (c : String)
    (hnd : P.customers.Nodup) (hc : c ∈ P.customers) :
    ∀ ws : List String,
      ((((ws.flatMap fun w => P.customers.map fun d => (w, d)).filterMap
          (routeRow P a)).filter fun r => decide (r.customer = c)).map
        Route.shipments).sum =
        (ws.map fun w =>
          if (1:ℚ)/100 < a (Var.x w c) then round2 (a (Var.x w c)) else 0).sum
  | [] => by simp
  | w :: ws => by
      rw [List.flatMap_cons, List.filterMap_append, List.filter_append,
        List.map_append, List.sum_append, custRows_sum P a c w P.customers hnd hc,
        custRows_outer P a c hnd hc ws, List.map_cons, List.sum_cons]

/-- Specification of find?: the returned element is the first satisfying the
predicate, and every earlier element fails it. -/
theorem find_first_spec {α : Type} (p : α → Bool) :
    ∀ (l : List α) (r : α), l.find? p = some r →
      ∃ j, ∃ hj : j < l.length, l.get ⟨j, hj⟩ = r ∧ p r = true ∧
        ∀ i, ∀ hi : i < l.length, i < j → p (l.get ⟨i, hi⟩) = false
  | [], r, h => by simp [List.find?] at h
  | a :: l, r, h => by
      by_cases hpa : p a
      · rw [List.find?_cons_of_pos _ hpa] at h
        injection h with h
        subst h
        exact ⟨0, Nat.succ_pos _, rfl, hpa, fun i hi hlt => absurd hlt (Nat.not_lt_zero i)⟩
      · rw [List.find?_cons_of_neg _ (by simpa using hpa)] at h
        obtain ⟨j, hj, hget, hpr, hbefore⟩ := find_first_spec p l r h
        refine ⟨j + 1, Nat.succ_lt_succ hj, ?_, hpr, ?_⟩
        · simpa using hget
        · intro i hi hlt
          cases i with
          | zero =>
              simpa using (Bool.of_not_eq_true hpa)
          | succ k =>
              have hk : k < l.length := Nat.lt_of_succ_lt_succ hi
              have := hbefore k hk (Nat.lt_of_succ_lt_succ hlt)
              simpa using this


/-- A cap of 0 is falsy in Python, so build_model adds no cardinality
constraint and the built model coincides with the uncapped one. -/
theorem build_model_cap0 (P : ProblemData) :
    build_model P (some 0) = build_model P none := by
  simp [build_model]

/-- The assignment aw is admissible for the uncapped model on Pw. -/
theorem admissible_demo : (build_model Pw none).admissible aw := by
  refine ⟨?_, ?_, ?_⟩ <;>
    norm_num [build_model, routePairs, totalDemand, Constr.sat, LinExpr.eval,
      demandConstr, linkConstr, Pw, aw]

/-- Extraction on Pw under aw produces the solution sw. -/
theorem extract_demo :
    extract_solution Pw (build_model Pw none) aw = Except.ok sw := by
  norm_num [extract_solution, extractRoutes, routeRow, openWarehouses, routePairs,
    build_model, LinExpr.eval, round2, round_eq, totalDemand, Pw, aw, sw,
    List.filterMap_cons]

/-- A solve on Pw with cap 0 and an Optimal oracle run yields the solution sw. -/
theorem solve_cap0_demo :
    solve Pw (some 0) ⟨SolveStatus.Optimal, aw⟩ = Except.ok (some sw) := by
  norm_num [solve, extract_solution, extractRoutes, routeRow, openWarehouses,
    routePairs, build_model, LinExpr.eval, round2, round_eq, totalDemand, Pw, aw, sw,
    List.filterMap_cons, Except.map]

set_option maxHeartbeats 4000000 in
/-- Evaluation of the scenario sweep on Pw under results2: the cap-2 run
succeeds, every later cap reports Infeasible, yet each later cap still
contributes a record copied from the stale cap-2 solution. -/
theorem compare_demo :
    compare_scenarios Pw results2 = Except.ok (recsDemo, rec120 2) := by
  norm_num [compare_scenarios, sweepFold, sweepCaps, scenario_optimal, results2,
    rec120, recsDemo, extract_solution, extractRoutes, routeRow, openWarehouses,
    routePairs, build_model, LinExpr.eval, round2, round_eq, totalDemand, Pw, aw,
    List.filterMap_cons, Bind.bind, Except.bind, Except.map, Pure.pure, Except.pure,
    List.find?, List.all]


/-- C1 (amended): a warehouse cap of 0 is falsy in Python, so build_model
adds no cardinality constraint at all and the built model is identical in
every part to the uncapped model; consequently a cap of 0 with nonzero
demand cannot by itself produce an Infeasible status — the cap-0 solve
behaves exactly like the uncapped solve. -/
theorem c1_cap_zero_is_no_cap (P : ProblemData) :
    build_model P (some 0) = build_model P none :=
  build_model_cap0 P

/-- C1 witness: the amended statement evaluated on the concrete instance Pw. -/
theorem c1_cap_zero_is_no_cap_witness :
    build_model Pw (some 0) = build_model Pw none :=
  c1_cap_zero_is_no_cap Pw

/-- C1 counterexample: on the instance Pw, whose single customer has demand
10, building with a cap of 0 leaves the model feasible (warehouse A open and
serving the demand is admissible), and solve on an Optimal run returns a
solution instead of reporting Infeasible. -/
theorem c1_counterexample :
    (∃ c ∈ Pw.customers, 0 < Pw.demand c) ∧
    (build_model Pw (some 0)).feasible ∧
    solve Pw (some 0) ⟨SolveStatus.Optimal, aw⟩ = Except.ok (some sw) := by
  refine ⟨⟨"c1", by norm_num [Pw], by norm_num [Pw]⟩, ⟨aw, ?_⟩, solve_cap0_demo⟩
  rw [build_model_cap0]
  exact admissible_demo

/-- C2: on the instance Pw with a solver oracle whose cap-2 run is Optimal
and whose every later run is Infeasible, the comparison table still contains
a record labelled cap 3 (and caps 4 to 8), copied from the stale cap-2
solution, because solve leaves self.solution untouched on failure and
compare_scenarios tests that stale attribute instead of the return value. -/
theorem c2_stale_record_demo :
    (results2 3).status = SolveStatus.Infeasible ∧
    compare_scenarios Pw results2 = Except.ok (recsDemo, rec120 2) ∧
    rec120 3 ∈ recsDemo ∧ (rec120 3).max_warehouses = 3 ∧
    (rec120 3).total_cost = (rec120 2).total_cost := by
  refine ⟨rfl, compare_demo, ?_, rfl, rfl⟩
  simp [recsDemo]

/-- C3: for every customer of the filtered demand mapping (in particular
every customer with nonzero demand) the built model registers the demand
constraint, it is an equality, and it holds under an assignment exactly when
the warehouse flows into that customer sum to the aggregated demand. -/
theorem c3_demand_equality (P : ProblemData) (cap : Option ℕ) (c : String)
    (hc : c ∈ P.customers) (hd : P.demand c ≠ 0) :
    demandConstr P c ∈ (build_model P cap).constraints ∧
    (demandConstr P c).rel = Rel.eq ∧
    ∀ a, (demandConstr P c).sat a ↔
      (P.warehouses.map fun w => a (Var.x w c)).sum = P.demand c :=
  ⟨demandConstr_mem cap hc, rfl, fun _ => demandConstr_sat_iff⟩

/-- C3 witness: the demand constraint of customer c1 on the instance Pw. -/
theorem c3_demand_equality_witness :
    demandConstr Pw "c1" ∈ (build_model Pw none).constraints ∧
    (demandConstr Pw "c1").rel = Rel.eq ∧
    ∀ a, (demandConstr Pw "c1").sat a ↔
      (Pw.warehouses.map fun w => a (Var.x w "c1")).sum = Pw.demand "c1" :=
  c3_demand_equality Pw none "c1" (by norm_num [Pw]) (by norm_num [Pw])

/-- C5: the objective of the built model is the fixed costs weighted by the
open indicators plus the unit costs (zero for pairs absent from the cost
matrix) weighted by the flows. -/
theorem c5_objective (P : ProblemData) (cap : Option ℕ) (a : Var → ℚ) :
    (build_model P cap).objective.eval a =
      (P.warehouses.map fun w => P.fixedCost w * a (Var.y w)).sum +
      ((routePairs P).map fun wc =>
        ((P.cost wc.1 wc.2).getD 0) * a (Var.x wc.1 wc.2)).sum :=
  objective_eval P cap a

/-- C10: when no flow value exceeds the 0.01 threshold, the route table is
empty, and solve after a successful (Optimal) solver run propagates the
KeyError raised by summing the absent total_cost column instead of
returning an empty zero-cost solution. -/
theorem c10_empty_routes_error (P : ProblemData) (cap : Option ℕ)
    (r : SolverResult) (hst : r.status = SolveStatus.Optimal)
    (hflow : ∀ w ∈ P.warehouses, ∀ c ∈ P.customers,
      ¬ ((1:ℚ)/100 < r.assignment (Var.x w c))) :
    extractRoutes P r.assignment = [] ∧
    solve P cap r = Except.error "KeyError: total_cost" := by
  have hroutes : extractRoutes P r.assignment = [] := by
    unfold extractRoutes
    rw [List.filterMap_eq_nil_iff]
    intro wc hwc
    obtain ⟨w, c⟩ := wc
    obtain ⟨hw, hc⟩ := mem_routePairs.1 hwc
    simp only [routeRow]
    rw [if_neg (hflow w hw c hc)]
  refine ⟨hroutes, ?_⟩
  unfold solve
  rw [if_pos (Or.inl hst)]
  unfold extract_solution
  rw [hroutes]
  rfl

/-- C10 witness: on Pw with an all-zero assignment from an Optimal run,
solve raises instead of returning an empty solution. -/
theorem c10_empty_routes_error_witness :
    extractRoutes Pw a0 = [] ∧
    solve Pw none ⟨SolveStatus.Optimal, a0⟩ = Except.error "KeyError: total_cost" :=
  c10_empty_routes_error Pw none ⟨SolveStatus.Optimal, a0⟩ rfl
    (by norm_num [Pw, a0])


/-- C4: every (warehouse, customer) pair has its linking constraint in the
model, with big-M equal to totalDemand (the sum of all demand of the filtered
set), and consequently, under any admissible assignment, every extracted
route references a warehouse of the open-warehouse list. -/
theorem c4_linking_invariant (P : ProblemData) (cap : Option ℕ) (a : Var → ℚ)
    (ha : (build_model P cap).admissible a) :
    totalDemand P = (P.customers.map P.demand).sum ∧
    (∀ w ∈ P.warehouses, ∀ c ∈ P.customers,
      linkConstr P w c ∈ (build_model P cap).constraints ∧
      ∀ b, (linkConstr P w c).sat b ↔
        b (Var.x w c) ≤ totalDemand P * b (Var.y w)) ∧
    ∀ r ∈ extractRoutes P a, r.warehouse ∈ openWarehouses P a := by
  refine ⟨rfl, fun w hw c hc =>
    ⟨linkConstr_mem cap hw hc, fun _ => linkConstr_sat_iff⟩, ?_⟩
  intro r hr
  obtain ⟨wc, hwc, hrow⟩ := List.mem_filterMap.1 hr
  obtain ⟨w, c⟩ := wc
  obtain ⟨hw, hc⟩ := mem_routePairs.1 hwc
  by_cases hpos : (1:ℚ)/100 < a (Var.x w c)
  · have hlink := linkConstr_sat_iff.1 (ha.2.2 _ (linkConstr_mem cap hw hc))
    have hbin := ha.1 _ (binaryVar_mem cap hw)
    have hy1 : a (Var.y w) = 1 := by
      rcases hbin with h0 | h1
      · exfalso; rw [h0, mul_zero] at hlink; linarith
      · exact h1
    have hwr : r.warehouse = w := by
      simp only [routeRow] at hrow
      rw [if_pos hpos] at hrow
      injection hrow with h
      rw [← h]
    rw [hwr]
    unfold openWarehouses
    rw [List.mem_filter]
    refine ⟨hw, ?_⟩
    simp only [hy1, decide_eq_true_eq]
    norm_num
  · simp only [routeRow] at hrow
    rw [if_neg hpos] at hrow
    exact Option.noConfusion hrow

/-- C4 witness: the linking constraints and extraction invariant on Pw. -/
theorem c4_linking_invariant_witness :
    totalDemand Pw = (Pw.customers.map Pw.demand).sum ∧
    (∀ w ∈ Pw.warehouses, ∀ c ∈ Pw.customers,
      linkConstr Pw w c ∈ (build_model Pw none).constraints ∧
      ∀ b, (linkConstr Pw w c).sat b ↔
        b (Var.x w c) ≤ totalDemand Pw * b (Var.y w)) ∧
    ∀ r ∈ extractRoutes Pw aw, r.warehouse ∈ openWarehouses Pw aw :=
  c4_linking_invariant Pw none aw admissible_demo

/-- C7 (amended): extraction keeps exactly the warehouses whose indicator
exceeds 0.5 and the pairs whose flow exceeds 0.01; each kept route is stamped
with the rounded flow, the raw (unrounded) unit cost from the cost matrix
(zero when absent), and the rounded line cost computed from the raw flow. -/
theorem c7_extraction_characterization (P : ProblemData) (a : Var → ℚ) :
    (∀ w, w ∈ openWarehouses P a ↔ w ∈ P.warehouses ∧ (1:ℚ)/2 < a (Var.y w)) ∧
    (∀ r, r ∈ extractRoutes P a ↔ ∃ w ∈ P.warehouses, ∃ c ∈ P.customers,
      (1:ℚ)/100 < a (Var.x w c) ∧
      r = { warehouse := w, customer := c,
            shipments := round2 (a (Var.x w c)),
            cost_per_shipment := (P.cost w c).getD 0,
            total_cost := round2 (a (Var.x w c) * (P.cost w c).getD 0) }) := by
  constructor
  · intro w
    rw [openWarehouses, List.mem_filter, decide_eq_true_eq]
  · intro r
    constructor
    · intro hr
      obtain ⟨wc, hwc, hrow⟩ := List.mem_filterMap.1 hr
      obtain ⟨w, c⟩ := wc
      obtain ⟨hw, hc⟩ := mem_routePairs.1 hwc
      by_cases hpos : (1:ℚ)/100 < a (Var.x w c)
      · refine ⟨w, hw, c, hc, hpos, ?_⟩
        simp only [routeRow] at hrow
        rw [if_pos hpos] at hrow
        injection hrow with h
        exact h.symm
      · simp only [routeRow] at hrow
        rw [if_neg hpos] at hrow
        exact Option.noConfusion hrow
    · rintro ⟨w, hw, c, hc, hpos, rfl⟩
      refine List.mem_filterMap.2 ⟨(w, c), mem_routePairs.2 ⟨hw, hc⟩, ?_⟩
      simp only [routeRow]
      rw [if_pos hpos]

/-- C7 counterexample: on the instance P7 the only extracted route keeps the
raw unit cost 0.123 while rounding it to two decimals would give 0.12, so the
claim that the stamped unit cost is rounded fails. -/
theorem c7_counterexample :
    extractRoutes P7 a7 = [r7] ∧
    round2 ((P7.cost "A" "c1").getD 0) = 12/100 ∧
    ¬ (∀ r ∈ extractRoutes P7 a7,
        r.cost_per_shipment = round2 ((P7.cost r.warehouse r.customer).getD 0)) := by
  have h1 : extractRoutes P7 a7 = [r7] := by
    norm_num [extractRoutes, routeRow, routePairs, P7, a7, r7, round2, round_eq,
      List.filterMap_cons]
  have h2 : round2 ((P7.cost "A" "c1").getD 0) = 12/100 := by
    norm_num [P7, round2, round_eq]
  refine ⟨h1, h2, ?_⟩
  intro hall
  have hmem : r7 ∈ extractRoutes P7 a7 := by
    rw [h1]; exact List.mem_cons_self _ _
  have hcp := hall _ hmem
  rw [show r7.warehouse = "A" from rfl, show r7.customer = "c1" from rfl, h2] at hcp
  rw [show r7.cost_per_shipment = 123/1000 from rfl] at hcp
  norm_num at hcp


/-- C6: on a successful extraction the fixed-cost total is the fixed costs of
exactly the open warehouses, the variable-cost total is the sum of the route
line costs, the total is their sum, and — for flows outside the noise band
and line costs exactly representable at two decimals, the regime the
tolerance clause describes — the total equals the solver objective. -/
theorem c6_cost_consistency (P : ProblemData) (cap : Option ℕ) (a : Var → ℚ)
    (s : Solution) (ha : (build_model P cap).admissible a)
    (hclean : ∀ w ∈ P.warehouses, ∀ c ∈ P.customers,
      a (Var.x w c) = 0 ∨ (1:ℚ)/100 < a (Var.x w c))
    (hexact : ∀ w ∈ P.warehouses, ∀ c ∈ P.customers,
      round2 (a (Var.x w c) * (P.cost w c).getD 0) =
        a (Var.x w c) * (P.cost w c).getD 0)
    (hs : extract_solution P (build_model P cap) a = Except.ok s) :
    s.fixed_cost = ((openWarehouses P a).map P.fixedCost).sum ∧
    s.variable_cost = ((extractRoutes P a).map Route.total_cost).sum ∧
    s.total_cost = s.fixed_cost + s.variable_cost ∧
    s.total_cost = s.objective_value := by
  simp only [extract_solution] at hs
  by_cases hemp : (extractRoutes P a).isEmpty
  · rw [if_pos hemp] at hs
    exact Except.noConfusion hs
  · rw [if_neg hemp] at hs
    injection hs with hs
    subst hs
    refine ⟨rfl, rfl, rfl, ?_⟩
    show ((openWarehouses P a).map P.fixedCost).sum +
        ((extractRoutes P a).map Route.total_cost).sum =
      (build_model P cap).objective.eval a
    rw [objective_eval]
    congr 1
    · have hbin : ∀ w ∈ P.warehouses, a (Var.y w) = 0 ∨ a (Var.y w) = 1 :=
        fun w hw => ha.1 _ (binaryVar_mem cap hw)
      unfold openWarehouses
      exact filter_half_sum P.fixedCost (fun w => a (Var.y w)) P.warehouses hbin
    · unfold extractRoutes
      refine filterMap_cost_sum P a (routePairs P) ?_ ?_
      · intro wc hwc
        obtain ⟨w, c⟩ := wc
        obtain ⟨hw, hc⟩ := mem_routePairs.1 hwc
        exact hclean w hw c hc
      · intro wc hwc
        obtain ⟨w, c⟩ := wc
        obtain ⟨hw, hc⟩ := mem_routePairs.1 hwc
        exact hexact w hw c hc

/-- C6 witness: cost consistency of the extracted solution sw on Pw. -/
theorem c6_cost_consistency_witness :
    sw.fixed_cost = ((openWarehouses Pw aw).map Pw.fixedCost).sum ∧
    sw.variable_cost = ((extractRoutes Pw aw).map Route.total_cost).sum ∧
    sw.total_cost = sw.fixed_cost + sw.variable_cost ∧
    sw.total_cost = sw.objective_value :=
  c6_cost_consistency Pw none aw sw admissible_demo
    (by norm_num [Pw, aw]) (by norm_num [Pw, aw, round2, round_eq]) extract_demo

/-- C8 (amended): under any admissible assignment the reported shipments of a
customer sum to its demand within one hundredth per warehouse (each reported
quantity is rounded to two decimals and sub-threshold flows are dropped);
the 0.001 tolerance of the original claim is too tight for the rounded
column. -/
theorem c8_demand_conservation (P : ProblemData) (cap : Option ℕ)
    (a : Var → ℚ) (c : String) (hnd : P.customers.Nodup)
    (ha : (build_model P cap).admissible a)
    (hc : c ∈ P.customers) (hd : P.demand c ≠ 0) :
    |(((extractRoutes P a).filter fun r => r.customer = c).map
        Route.shipments).sum - P.demand c| ≤ (P.warehouses.length : ℚ) / 100 := by
  have hsum : (P.warehouses.map fun w => a (Var.x w c)).sum = P.demand c :=
    demandConstr_sat_iff.1 (ha.2.2 _ (demandConstr_mem cap hc))
  have hrw : (((extractRoutes P a).filter fun r => r.customer = c).map
      Route.shipments).sum =
      (P.warehouses.map fun w =>
        if (1:ℚ)/100 < a (Var.x w c) then round2 (a (Var.x w c)) else 0).sum := by
    unfold extractRoutes routePairs
    exact custRows_outer P a c hnd hc P.warehouses
  have hclose : ∀ w ∈ P.warehouses,
      |(if (1:ℚ)/100 < a (Var.x w c) then round2 (a (Var.x w c)) else 0) -
        a (Var.x w c)| ≤ 1/100 := by
    intro w hw
    exact shipterm_close (ha.2.1 _ (contVar_mem cap hw hc))
  have hbound := sum_abs_le
    (fun w => if (1:ℚ)/100 < a (Var.x w c) then round2 (a (Var.x w c)) else 0)
    (fun w => a (Var.x w c)) (1/100) (by norm_num) P.warehouses hclose
  rw [hrw, ← hsum]
  calc |(P.warehouses.map fun w =>
        if (1:ℚ)/100 < a (Var.x w c) then round2 (a (Var.x w c)) else 0).sum -
        (P.warehouses.map fun w => a (Var.x w c)).sum|
      ≤ (P.warehouses.length : ℚ) * (1/100) := hbound
    _ = (P.warehouses.length : ℚ) / 100 := by ring

/-- C8 witness: demand conservation bound for customer c1 on Pw. -/
theorem c8_demand_conservation_witness :
    |(((extractRoutes Pw aw).filter fun r => r.customer = "c1").map
        Route.shipments).sum - Pw.demand "c1"| ≤ (Pw.warehouses.length : ℚ) / 100 :=
  c8_demand_conservation Pw none aw "c1" (by simp [Pw]) admissible_demo
    (by simp [Pw]) (by norm_num [Pw])

/-- C8 counterexample: on the instance P8, whose single customer demands
5.004 units, the solver assignment a8 satisfies every model constraint, yet
the reported shipments column sums to 5.00 (rounded to two decimals), which
misses the demand by 0.004, beyond the claimed 0.001 tolerance. -/
theorem c8_tolerance_counterexample :
    (build_model P8 none).admissible a8 ∧
    P8.customers.Nodup ∧ "c1" ∈ P8.customers ∧ P8.demand "c1" ≠ 0 ∧
    ¬ (|(((extractRoutes P8 a8).filter fun r => r.customer = "c1").map
        Route.shipments).sum - P8.demand "c1"| ≤ 1/1000) := by
  refine ⟨?_, by simp [P8], by simp [P8], by norm_num [P8], ?_⟩
  · refine ⟨?_, ?_, ?_⟩ <;>
      norm_num [build_model, routePairs, totalDemand, Constr.sat, LinExpr.eval,
        demandConstr, linkConstr, P8, a8]
  · have hsum : (((extractRoutes P8 a8).filter fun r => r.customer = "c1").map
        Route.shipments).sum = 5 := by
      norm_num [extractRoutes, routeRow, routePairs, P8, a8, round2, round_eq,
        List.filterMap_cons, List.filter_cons]
    rw [hsum, show P8.demand "c1" = 1251/250 from rfl, not_le,
      show (5:ℚ) - 1251/250 = -(1/250) by norm_num, abs_neg,
      abs_of_nonneg (by norm_num : (0:ℚ) ≤ 1/250)]
    norm_num

/-- C9: whenever compare_scenarios returns a comparison table and an optimal
row, that row is a collected record of minimal total cost, and it is the
first minimal one in sweep (cap) order: every earlier record costs strictly
more. -/
theorem c9_optimal_first_minimum (P : ProblemData) (results : ℕ → SolverResult)
    (recs : List ScenarioRec) (opt : ScenarioRec)
    (h : compare_scenarios P results = Except.ok (recs, opt)) :
    ∃ j, ∃ hj : j < recs.length, recs.get ⟨j, hj⟩ = opt ∧
      (∀ s ∈ recs, opt.total_cost ≤ s.total_cost) ∧
      ∀ i, ∀ hi : i < recs.length, i < j →
        opt.total_cost < (recs.get ⟨i, hi⟩).total_cost := by
  have hopt : scenario_optimal recs = some opt := by
    unfold compare_scenarios at h
    cases hsf : sweepFold P results sweepCaps ([], none) with
    | error e =>
        rw [hsf] at h
        simp only [Bind.bind, Except.bind] at h
        exact Except.noConfusion h
    | ok st =>
        rw [hsf] at h
        simp only [Bind.bind, Except.bind] at h
        cases hso : scenario_optimal st.1 with
        | none =>
            rw [hso] at h
            exact Except.noConfusion h
        | some r =>
            rw [hso] at h
            injection h with h
            have h1 : st.1 = recs := congrArg Prod.fst h
            have h2 : r = opt := congrArg Prod.snd h
            rw [h1, h2] at hso
            exact hso
  obtain ⟨j, hj, hget, hp, hbefore⟩ := find_first_spec _ recs opt hopt
  have hmin : ∀ s ∈ recs, opt.total_cost ≤ s.total_cost := by
    intro s hs
    exact of_decide_eq_true (List.all_eq_true.1 hp s hs)
  refine ⟨j, hj, hget, hmin, ?_⟩
  intro i hi hlt
  have hfalse := hbefore i hi hlt
  have hne : ¬ ((recs.all fun s =>
      decide ((recs.get ⟨i, hi⟩).total_cost ≤ s.total_cost)) = true) := by
    rw [hfalse]
    exact Bool.false_ne_true
  rw [List.all_eq_true] at hne
  push_neg at hne
  obtain ⟨s, hsmem, hsne⟩ := hne
  have hslt : s.total_cost < (recs.get ⟨i, hi⟩).total_cost := by
    have : ¬ ((recs.get ⟨i, hi⟩).total_cost ≤ s.total_cost) := by
      intro hle
      exact hsne (decide_eq_true hle)
    exact not_le.1 this
  exact lt_of_le_of_lt (hmin s hsmem) hslt

/-- C9 witness: on Pw under results2 the reported optimal row is the first
(cap 2) record, of minimal total cost among the seven collected records. -/
theorem c9_optimal_first_minimum_witness :
    ∃ j, ∃ hj : j < recsDemo.length, recsDemo.get ⟨j, hj⟩ = rec120 2 ∧
      (∀ s ∈ recsDemo, (rec120 2).total_cost ≤ s.total_cost) ∧
      ∀ i, ∀ hi : i < recsDemo.length, i < j →
        (rec120 2).total_cost < (recsDemo.get ⟨i, hi⟩).total_cost :=
  c9_optimal_first_minimum Pw results2 recsDemo (rec120 2) compare_demo

end LogiFlow
